import Mathlib

/-!
Shallow embedding of the Ca Mau DST digital-library client core:
the tiered image preloader (`useImagePreloader.ts`), the flipbook
layout calculator and gesture handlers (`FlipbookViewer.tsx`), the
page-flip sound player (`usePageFlipSound.ts`), and the backend
document mutations/queries (`convex/documents.ts`).

Machine numbers are modelled as `ℚ` (JS numbers), nullable URL slots as
`Option String`, and JS string truthiness (`!!url`) as `url ≠ ""`.
-/

/-! ## Image preloader (`src/components/hooks/useImagePreloader.ts`) -/

/-- JS truthiness of a nullable URL slot: `null` and `""` are falsy. -/
def truthyOpt : Option String → Bool
  | none => false
  | some s => s ≠ ""

/-- `pageImageUrls.filter((url): url is string => !!url)` — the non-null,
non-empty URLs in order (`useImagePreloader.ts:151`). -/
def validOf (pageImageUrls : List (Option String)) : List String :=
  (pageImageUrls.filter truthyOpt).filterMap id

/-- JS `Array.prototype.slice(a, b)` on a list (clamped at both ends). -/
def sliceL (l : List String) (a b : ℕ) : List String :=
  (l.drop a).take (b - a)

/-- The four priority tiers dispatched by one `preloadForViewer` call. -/
structure Tiers where
  critical : List String
  high : List String
  low : List String
  idle : List String
deriving Repr, DecidableEq

/-- `preloadForViewer(pageImageUrls, currentPage, initialPages)`
(`useImagePreloader.ts:146-183`): filters out falsy entries, then cuts
the filtered list into four contiguous tiers starting at index
`currentPage - 1` of the *filtered* list. -/
def preloadForViewer (pageImageUrls : List (Option String))
    (currentPage : ℕ) (initialPages : ℕ) : Tiers :=
  let validUrls := validOf pageImageUrls
  if validUrls.length = 0 then ⟨[], [], [], []⟩ else
  let currentIndex := currentPage - 1
  let criticalStart := currentIndex
  let criticalEnd := min validUrls.length (criticalStart + initialPages)
  let highEnd := min validUrls.length (criticalEnd + 2)
  let lowEnd := min validUrls.length (highEnd + 4)
  ⟨sliceL validUrls criticalStart criticalEnd,
   sliceL validUrls criticalEnd highEnd,
   sliceL validUrls highEnd lowEnd,
   validUrls.drop lowEnd⟩

/-- All URLs dispatched by one `preloadForViewer` call, in tier order. -/
def Tiers.union (t : Tiers) : List String :=
  t.critical ++ t.high ++ t.low ++ t.idle

/-- Modelled from the claim's words (for refinement comparison only):
"the set of non-null URLs at positions `currentPage-1` (0-based) through
the end of the original sequence". -/
def claimTailUrls (pageImageUrls : List (Option String))
    (currentPage : ℕ) : List String :=
  (pageImageUrls.drop (currentPage - 1)).filterMap id

lemma sliceL_append_drop (l : List String) {a b : ℕ} (hab : a ≤ b) :
    sliceL l a b ++ l.drop b = l.drop a := by
  unfold sliceL
  have h : l.drop b = (l.drop a).drop (b - a) := by
    rw [List.drop_drop]
    congr 1
    omega
  rw [h, List.take_append_drop]

lemma mem_validOf {u : String} {l : List (Option String)}
    (hu : u ∈ validOf l) : some u ∈ l ∧ u ≠ "" := by
  unfold validOf at hu
  rcases List.mem_filterMap.mp hu with ⟨o, ho, hid⟩
  simp only [id_eq] at hid
  subst hid
  rcases List.mem_filter.mp ho with ⟨hmem, htr⟩
  exact ⟨hmem, by simpa [truthyOpt] using htr⟩

/-- Pairwise disjointness of the four tiers, as URL sets. -/
def Tiers.PairwiseDisjoint (t : Tiers) : Prop :=
  t.critical.Disjoint t.high ∧ t.critical.Disjoint t.low
    ∧ t.critical.Disjoint t.idle ∧ t.high.Disjoint t.low
    ∧ t.high.Disjoint t.idle ∧ t.low.Disjoint t.idle

lemma disjoint_of_nodup_append4 {α : Type} {a b c d : List α}
    (h : (a ++ b ++ c ++ d).Nodup) :
    a.Disjoint b ∧ a.Disjoint c ∧ a.Disjoint d
      ∧ b.Disjoint c ∧ b.Disjoint d ∧ c.Disjoint d := by
  simp only [List.nodup_append, List.disjoint_append_right,
    List.disjoint_append_left] at h
  tauto

/-- The tiers concatenate to the tail of the filtered URL list. -/
lemma preloadForViewer_union (pageImageUrls : List (Option String))
    (currentPage initialPages : ℕ) :
    (preloadForViewer pageImageUrls currentPage initialPages).union
      = (validOf pageImageUrls).drop (currentPage - 1) := by
  unfold preloadForViewer Tiers.union
  set v := validOf pageImageUrls with hv
  by_cases h0 : v.length = 0
  · have : v = [] := List.length_eq_zero.mp h0
    simp [h0, this]
  · simp only [h0, if_false]
    set cs := currentPage - 1 with hcs
    rcases le_or_lt v.length cs with hbig | hsmall
    · -- the start index is past the end of the filtered list: all empty
      have hce : min v.length (cs + initialPages) = v.length := by omega
      have hhe : min v.length (v.length + 2) = v.length := by omega
      have hle : min v.length (v.length + 4) = v.length := by omega
      have hdropcs : v.drop cs = [] := List.drop_eq_nil_of_le hbig
      have hdroplen : v.drop v.length = [] := List.drop_eq_nil_of_le le_rfl
      simp [hce, hhe, hle, sliceL, hdropcs, hdroplen]
    · have hcs_le : cs ≤ min v.length (cs + initialPages) := by omega
      have hce_le : min v.length (cs + initialPages)
          ≤ min v.length (min v.length (cs + initialPages) + 2) := by omega
      have hhe_le : min v.length (min v.length (cs + initialPages) + 2)
          ≤ min v.length (min v.length (min v.length (cs + initialPages) + 2) + 4) := by
        omega
      rw [List.append_assoc, List.append_assoc,
        sliceL_append_drop v hhe_le, sliceL_append_drop v hce_le,
        sliceL_append_drop v hcs_le]

/-- C1 counterexample: with `pageImageUrls = [null, "a"]` and
`currentPage = 2`, the dispatched union is empty while the claim's set of
non-null URLs from position 1 onward is `{"a"}`; and with a duplicated
URL `["u", "u"]`, `currentPage = 1`, `initialPages = 1`, the critical and
high tiers both contain `"u"`, so they are not disjoint as URL sets. -/
theorem preloadForViewer_claim_false :
    (preloadForViewer [none, some "a"] 2 2).union = []
    ∧ claimTailUrls [none, some "a"] 2 = ["a"]
    ∧ "u" ∈ (preloadForViewer [some "u", some "u"] 1 1).critical
    ∧ "u" ∈ (preloadForViewer [some "u", some "u"] 1 1).high := by
  refine ⟨?_, ?_, ?_, ?_⟩ <;> decide

/-- C1 (amended): the four tiers are contiguous slices of the
null/empty-filtered URL list; their concatenation equals that filtered
list from index `currentPage - 1` (of the filtered list) onward; when the
filtered list has no duplicate URLs the four tiers are pairwise disjoint;
and every dispatched URL is a non-null, non-empty entry of the input. -/
theorem preloadForViewer_tiers_partition
    (pageImageUrls : List (Option String)) (currentPage initialPages : ℕ)
    (hnd : (validOf pageImageUrls).Nodup) :
    (preloadForViewer pageImageUrls currentPage initialPages).union
        = (validOf pageImageUrls).drop (currentPage - 1)
    ∧ (preloadForViewer pageImageUrls currentPage initialPages).PairwiseDisjoint
    ∧ ∀ u ∈ (preloadForViewer pageImageUrls currentPage initialPages).union,
        some u ∈ pageImageUrls ∧ u ≠ "" := by
  have hu := preloadForViewer_union pageImageUrls currentPage initialPages
  refine ⟨hu, ?_, ?_⟩
  · have hnodup :
        (preloadForViewer pageImageUrls currentPage initialPages).union.Nodup := by
      rw [hu]
      exact List.Nodup.sublist (List.drop_sublist _ _) hnd
    unfold Tiers.union at hnodup
    exact disjoint_of_nodup_append4 hnodup
  · intro u hu'
    rw [hu] at hu'
    exact mem_validOf (List.mem_of_mem_drop hu')

/-- C1 witness: a concrete run of the amended theorem. -/
theorem preloadForViewer_tiers_partition_witness :
    (validOf [some "a", none, some "b", some "c"]).Nodup
    ∧ (preloadForViewer [some "a", none, some "b", some "c"] 1 2).union
        = (validOf [some "a", none, some "b", some "c"]).drop 0 :=
  ⟨by decide,
   (preloadForViewer_tiers_partition [some "a", none, some "b", some "c"] 1 2
      (by decide)).1⟩

/-! ## Preload scheduler state (`useImagePreloader.ts:14-130`) -/

/-- `PreloadTask.priority` values. -/
inductive Priority where
  | critical | high | low | idle
deriving Repr, DecidableEq

/-- `PreloadTask.status` values. -/
inductive TaskStatus where
  | pending | loading | loaded | error
deriving Repr, DecidableEq

/-- An entry of the module-level `pendingTasks` array
(`useImagePreloader.ts:7-11`). -/
structure PreloadTask where
  url : String
  priority : Priority
  status : TaskStatus
deriving Repr, DecidableEq

/-- The module-level scheduler state: the `loadedImages` set and the
`pendingTasks` queue (`useImagePreloader.ts:14-15`). -/
structure PreloaderState where
  loadedImages : List String
  pendingTasks : List PreloadTask
deriving Repr, DecidableEq

/-- The filter at the head of `preload`
(`useImagePreloader.ts:96`): `urls.filter(url => url && !loadedImages.has(url))`.
Only falsy URLs and URLs already in the loaded cache are removed. -/
def preloadValidUrls (loadedImages : List String) (urls : List String) :
    List String :=
  urls.filter (fun u => u ≠ "" && !(loadedImages.contains u))

/-- The `'low'` branch of `preload` (`useImagePreloader.ts:114-120`): each
surviving URL is pushed onto `pendingTasks` as a pending low-priority task. -/
def preloadLow (st : PreloaderState) (urls : List String) : PreloaderState :=
  { st with
    pendingTasks := st.pendingTasks ++
      (preloadValidUrls st.loadedImages urls).map
        (fun u => ⟨u, Priority.low, TaskStatus.pending⟩) }

/-- The `'idle'` branch of `preload` (`useImagePreloader.ts:122-128`): same
enqueue as the low branch, with idle priority. -/
def preloadIdle (st : PreloaderState) (urls : List String) : PreloaderState :=
  { st with
    pendingTasks := st.pendingTasks ++
      (preloadValidUrls st.loadedImages urls).map
        (fun u => ⟨u, Priority.idle, TaskStatus.pending⟩) }

/-- C2 counterexample: starting from an empty cache and empty queue, two
successive `preload(["u"], 'low')` calls enqueue the not-yet-loaded URL
`"u"` twice, not once — `preload` never consults `pendingTasks`. -/
theorem preload_dedup_claim_false :
    ((preloadLow (preloadLow ⟨[], []⟩ ["u"]) ["u"]).pendingTasks.map
      PreloadTask.url).count "u" = 2 := by
  decide

/-- C2 (amended): `preload` filters only against the loaded-URL cache (and
drops falsy URLs) — a URL already in the cache is never dispatched or
enqueued — but it does not filter against the pending task queue, so a
not-yet-loaded URL is enqueued again by every low/idle call that lists it:
two successive `preload([u], 'low')` calls enqueue `u` twice. -/
theorem preload_filters_loaded_only (loadedImages urls : List String)
    (u : String) :
    (u ∈ loadedImages → u ∉ preloadValidUrls loadedImages urls)
    ∧ (u ∉ loadedImages → u ≠ "" →
        ((preloadLow (preloadLow ⟨loadedImages, []⟩ [u]) [u]).pendingTasks.map
          PreloadTask.url).count u = 2) := by
  constructor
  · intro hmem hin
    rcases List.mem_filter.mp hin with ⟨-, hp⟩
    simp at hp
    exact hp.2 hmem
  · intro hnot hne
    have hvalid : preloadValidUrls loadedImages [u] = [u] := by
      simp [preloadValidUrls, hne, hnot]
    simp [preloadLow, hvalid, List.count_append]

/-- C2 witness: concrete runs of both conjuncts of the amended theorem. -/
theorem preload_filters_loaded_only_witness :
    ("a" ∈ ["a"] ∧ "u" ∉ ([] : List String) ∧ "u" ≠ "")
    ∧ "a" ∉ preloadValidUrls ["a"] ["a", "u"]
    ∧ ((preloadLow (preloadLow ⟨[], []⟩ ["u"]) ["u"]).pendingTasks.map
        PreloadTask.url).count "u" = 2 :=
  ⟨by decide,
   (preload_filters_loaded_only ["a"] ["a", "u"] "a").1 (by decide),
   (preload_filters_loaded_only [] ["u"] "u").2 (by decide) (by decide)⟩

/-- `preloadImage(url)` (`useImagePreloader.ts:19-34`) as a state step: if
the URL is cached it resolves immediately; otherwise the fetch outcome
`succeeds` decides whether the URL is added to `loadedImages` (onload) or
left out (onerror).  The `Bool` result is `true` iff the promise resolves. -/
def preloadImage (loadedImages : List String) (url : String)
    (succeeds : Bool) : List String × Bool :=
  if url ∈ loadedImages then (loadedImages, true)
  else if succeeds then (url :: loadedImages, true) else (loadedImages, false)

/-- C6: a failed preload attempt leaves the loaded-URL cache unchanged and
does not mark the URL loaded, so any subsequent `preload` (or
`preloadForViewer` tier dispatch) whose URL list contains that URL passes
it through the `preload` filter again — a new fetch attempt is dispatched;
failure never prevents retrying. -/
theorem failed_preload_not_cached (loadedImages : List String) (url : String)
    (urls : List String) (hnot : url ∉ loadedImages) (hne : url ≠ "") :
    (preloadImage loadedImages url false).1 = loadedImages
    ∧ (preloadImage loadedImages url false).2 = false
    ∧ url ∉ (preloadImage loadedImages url false).1
    ∧ (url ∈ urls →
        url ∈ preloadValidUrls (preloadImage loadedImages url false).1 urls) := by
  have hstep : preloadImage loadedImages url false = (loadedImages, false) := by
    simp [preloadImage, hnot]
  refine ⟨by rw [hstep], by rw [hstep], by rw [hstep]; exact hnot, ?_⟩
  intro hmem
  rw [hstep]
  refine List.mem_filter.mpr ⟨hmem, ?_⟩
  simp [hne, hnot]

/-- C6 witness: a concrete failed attempt on an uncached URL. -/
theorem failed_preload_not_cached_witness :
    ("u" ∉ ([] : List String) ∧ "u" ≠ "")
    ∧ (preloadImage [] "u" false).1 = []
    ∧ ("u" ∈ ["u"] →
        "u" ∈ preloadValidUrls (preloadImage [] "u" false).1 ["u"]) :=
  ⟨by decide,
   (failed_preload_not_cached [] "u" ["u"] (by decide) (by decide)).1,
   (failed_preload_not_cached [] "u" ["u"] (by decide) (by decide)).2.2.2⟩

/-! ## Layout calculator (`src/components/FlipbookViewer.tsx:671-728`) -/

/-- JS `Math.floor` on a (rational-modelled) number. -/
def jsFloor (q : ℚ) : ℤ := ⌊q⌋

/-- JS `Math.round` (half up) on a (rational-modelled) number. -/
def jsRound (q : ℚ) : ℤ := ⌊q + 1/2⌋

/-- Rounding to two decimal places, as the spec's `round(h/w, 2)`. -/
def round2 (q : ℚ) : ℚ := (jsRound (q * 100) : ℚ) / 100

/-- Available sheet dimensions `(maxW, maxH)` per view mode
(`FlipbookViewer.tsx:679-704`): viewports narrower than 1024 are single
mode with 40px margins; otherwise double mode with 60px vertical margin
and `(containerW - 80) / 2` per sheet. -/
def layoutAvail (containerW containerH windowW : ℚ) : ℚ × ℚ :=
  if windowW < 1024 then (containerW - 40, containerH - 40)
  else ((containerW - 80) / 2, containerH - 60)

/-- The height-first fit with width-first recompute
(`FlipbookViewer.tsx:694-712`): `height = maxH`, `width = maxH / ratio`;
if that width exceeds `maxW`, recompute `width = maxW`,
`height = maxW * ratio`.  Returns `(width, height)`. -/
def layoutFit (ratio maxW maxH : ℚ) : ℚ × ℚ :=
  if maxH / ratio > maxW then (maxW, maxW * ratio) else (maxH / ratio, maxH)

/-- The sanity clamps (`FlipbookViewer.tsx:715-717`): width is raised to
200 and height to `200 * ratio` when below those floors. -/
def layoutClamp (ratio : ℚ) (wh : ℚ × ℚ) : ℚ × ℚ :=
  (if wh.1 < 200 then 200 else wh.1,
   if wh.2 < 200 * ratio then 200 * ratio else wh.2)

/-- `calculateLayout` before the final integer flooring, as exact
rationals: mode selection, fit, clamps. -/
def calculateLayoutQ (containerW containerH windowW ratio : ℚ) : ℚ × ℚ :=
  layoutClamp ratio
    (layoutFit ratio (layoutAvail containerW containerH windowW).1
      (layoutAvail containerW containerH windowW).2)

/-- `calculateLayout` (`FlipbookViewer.tsx:672-723`): the stored base
dimensions `(width, height)`, floored to integers as in
`setBaseDim({ width: Math.floor(..), height: Math.floor(..) })`. -/
def calculateLayout (containerW containerH windowW ratio : ℚ) : ℤ × ℤ :=
  (jsFloor (calculateLayoutQ containerW containerH windowW ratio).1,
   jsFloor (calculateLayoutQ containerW containerH windowW ratio).2)

lemma layoutClamp_fst_le (ratio : ℚ) (p : ℚ × ℚ) (b : ℚ) (h : p.1 ≤ b) :
    (layoutClamp ratio p).1 ≤ max b 200 := by
  unfold layoutClamp
  dsimp only
  split
  · exact le_max_right _ _
  · exact le_trans h (le_max_left _ _)

lemma layoutClamp_snd_le (ratio : ℚ) (p : ℚ × ℚ) (b : ℚ) (h : p.2 ≤ b) :
    (layoutClamp ratio p).2 ≤ max b (200 * ratio) := by
  unfold layoutClamp
  dsimp only
  split
  · exact le_max_right _ _
  · exact le_trans h (le_max_left _ _)

lemma layoutFit_fst_le (ratio maxW maxH : ℚ) :
    (layoutFit ratio maxW maxH).1 ≤ maxW := by
  unfold layoutFit
  split
  · exact le_refl _
  · next h => exact le_of_not_lt h

lemma layoutFit_snd_le (ratio maxW maxH : ℚ) (hr : 0 < ratio) :
    (layoutFit ratio maxW maxH).2 ≤ maxH := by
  unfold layoutFit
  split
  · next h => exact ((lt_div_iff₀ hr).mp h).le
  · exact le_refl _

lemma layoutFit_snd_eq (ratio maxW maxH : ℚ) (hr : ratio ≠ 0) :
    (layoutFit ratio maxW maxH).2 = (layoutFit ratio maxW maxH).1 * ratio := by
  unfold layoutFit
  split
  · rfl
  · exact (div_mul_cancel₀ maxH hr).symm

lemma layoutClamp_ratio_eq (ratio : ℚ) (hr : 0 < ratio) (p : ℚ × ℚ)
    (hp : p.2 = p.1 * ratio) :
    (layoutClamp ratio p).2 = (layoutClamp ratio p).1 * ratio := by
  unfold layoutClamp
  dsimp only
  rw [hp]
  by_cases h : p.1 < 200
  · rw [if_pos h, if_pos ((mul_lt_mul_right hr).mpr h)]
  · rw [if_neg h, if_neg (fun hh => h ((mul_lt_mul_right hr).mp hh))]

/-- The spec's concrete double-mode vector evaluates to a 523 × 740 sheet. -/
lemma calculateLayout_vector_eval :
    calculateLayout 1200 800 1400 (707/500) = (523, 740) := by
  norm_num [calculateLayout, calculateLayoutQ, layoutAvail, layoutFit,
    layoutClamp, jsFloor, Prod.ext_iff]

/-- C3: the concrete layout vector from the spec holds (`height ≤ 740`,
`width ≤ 560`, stored height/width rounds to `1.41` at two decimals; a
100×100 container clamps the width to exactly 200 in either view mode),
and in general the clamped fit never exceeds the available width/height
beyond the 200-pixel floor clamps. -/
theorem calculateLayout_spec :
    ((calculateLayout 1200 800 1400 (707/500)).2 ≤ 740
      ∧ (calculateLayout 1200 800 1400 (707/500)).1 ≤ 560
      ∧ round2 (((calculateLayout 1200 800 1400 (707/500)).2 : ℚ)
          / ((calculateLayout 1200 800 1400 (707/500)).1 : ℚ)) = 141/100)
    ∧ (∀ vw : ℚ, (calculateLayout 100 100 vw (707/500)).1 = 200)
    ∧ (∀ cw ch vw ratio : ℚ, 0 < ratio →
        (calculateLayoutQ cw ch vw ratio).1 ≤ max (layoutAvail cw ch vw).1 200
        ∧ (calculateLayoutQ cw ch vw ratio).2
            ≤ max (layoutAvail cw ch vw).2 (200 * ratio)) := by
  refine ⟨?_, ?_, ?_⟩
  · rw [calculateLayout_vector_eval]
    refine ⟨by norm_num, by norm_num, ?_⟩
    norm_num [round2, jsRound]
  · intro vw
    rcases lt_or_le vw 1024 with h | h
    · have hA : layoutAvail 100 100 vw = (60, 60) := by
        unfold layoutAvail
        rw [if_pos h]
        norm_num
      norm_num [calculateLayout, calculateLayoutQ, hA, layoutFit, layoutClamp,
        jsFloor]
    · have hA : layoutAvail 100 100 vw = (10, 40) := by
        unfold layoutAvail
        rw [if_neg (not_lt.mpr h)]
        norm_num
      norm_num [calculateLayout, calculateLayoutQ, hA, layoutFit, layoutClamp,
        jsFloor]
  · intro cw ch vw ratio hr
    unfold calculateLayoutQ
    exact ⟨layoutClamp_fst_le ratio _ _ (layoutFit_fst_le ratio _ _),
      layoutClamp_snd_le ratio _ _ (layoutFit_snd_le ratio _ _ hr)⟩

/-- C3 witness: a concrete run of the general no-overflow clause. -/
theorem calculateLayout_spec_witness :
    (0 : ℚ) < 707/500
    ∧ ((calculateLayoutQ 1200 800 1400 (707/500)).1
        ≤ max (layoutAvail 1200 800 1400).1 200
      ∧ (calculateLayoutQ 1200 800 1400 (707/500)).2
        ≤ max (layoutAvail 1200 800 1400).2 (200 * (707/500))) :=
  ⟨by norm_num, calculateLayout_spec.2.2 1200 800 1400 (707/500) (by norm_num)⟩

/-- C4 counterexample: at the spec's own vector the stored (floored)
dimensions are `(523, 740)`, and `740 / 523 ≠ 1.414` — integer flooring
breaks the exact `baseHeight / baseWidth == intrinsicRatio` identity even
though no floor clamp fires. -/
theorem storedRatio_claim_false :
    calculateLayout 1200 800 1400 (707/500) = (523, 740)
    ∧ ((740 : ℚ) / 523 ≠ 707/500) :=
  ⟨calculateLayout_vector_eval, by norm_num⟩

/-- C4 (amended): before the final integer flooring, the computed base
dimensions satisfy `height = width * intrinsicRatio` exactly for every
input (the two floor clamps fire together and preserve the ratio); the
stored dimensions deviate from the exact ratio only by the flooring. -/
theorem calculateLayoutQ_ratio_exact (cw ch vw ratio : ℚ) (hr : 0 < ratio) :
    (calculateLayoutQ cw ch vw ratio).2
      = (calculateLayoutQ cw ch vw ratio).1 * ratio := by
  unfold calculateLayoutQ
  exact layoutClamp_ratio_eq ratio hr _ (layoutFit_snd_eq _ _ _ (ne_of_gt hr))

/-- C4 witness: the exact-ratio identity at the spec's concrete vector. -/
theorem calculateLayoutQ_ratio_exact_witness :
    (0 : ℚ) < 707/500
    ∧ (calculateLayoutQ 1200 800 1400 (707/500)).2
        = (calculateLayoutQ 1200 800 1400 (707/500)).1 * (707/500) :=
  ⟨by norm_num, calculateLayoutQ_ratio_exact 1200 800 1400 (707/500) (by norm_num)⟩

/-! ## Lazy per-page rendering (`src/components/FlipbookViewer.tsx:648-657`) -/

/-- `PRELOAD_AHEAD` (`FlipbookViewer.tsx:492`): pages loaded ahead of the
current page. -/
def PRELOAD_AHEAD : ℕ := 2

/-- `shouldRenderPage(pageIndex)` (`FlipbookViewer.tsx:648-657`): the
first `initialPages` pages always render; otherwise a page renders iff
its index is at most `currentIndex + PRELOAD_AHEAD` where
`currentIndex = pageNumber - 1`. -/
def shouldRenderPage (pageNumber initialPages pageIndex : ℕ) : Bool :=
  if pageIndex < initialPages then true
  else pageIndex ≤ (pageNumber - 1) + PRELOAD_AHEAD

/-- Modelled from the claim's words (for refinement comparison only): a
±4-page window around the current page, `|i - (p-1)| ≤ 4`. -/
def claimRenderWindow (pageNumber pageIndex : ℕ) : Bool :=
  ((pageIndex : ℤ) - ((pageNumber : ℤ) - 1)).natAbs ≤ 4

/-- C5 counterexample: at `pageNumber = 10`, `initialPages = 2`, page
index 0 is rendered though it is 9 pages behind the current page (outside
any ±4 window), and at `pageNumber = 1`, `initialPages = 1`, page index 4
is inside the claimed ±4 window yet gets the placeholder. -/
theorem shouldRenderPage_claim_false :
    (shouldRenderPage 10 2 0 = true ∧ claimRenderWindow 10 0 = false)
    ∧ (shouldRenderPage 1 1 4 = false ∧ claimRenderWindow 1 4 = true) := by
  refine ⟨⟨?_, ?_⟩, ?_, ?_⟩ <;> decide

/-- C5 (amended): in raw-document mode a page is handed to the rendering
library iff its index is below `initialPages` or at most
`(pageNumber - 1) + 2`: every page behind the current page renders
(the window is unbounded backwards) and exactly `PRELOAD_AHEAD = 2` pages
render ahead, i.e. render happens iff
`pageIndex ≤ max (initialPages - 1) (pageNumber + 1)`. -/
theorem shouldRenderPage_window (pageNumber initialPages pageIndex : ℕ)
    (hp : 1 ≤ pageNumber) :
    shouldRenderPage pageNumber initialPages pageIndex = true
      ↔ pageIndex ≤ max (initialPages - 1) (pageNumber + 1) := by
  unfold shouldRenderPage PRELOAD_AHEAD
  split
  · next h => simp; omega
  · next h => simp; omega

/-- C5 witness: concrete instances of the amended window equivalence. -/
theorem shouldRenderPage_window_witness :
    (1 ≤ 10)
    ∧ (shouldRenderPage 10 2 11 = true ↔ (11 : ℕ) ≤ max 1 11)
    ∧ (shouldRenderPage 10 2 12 = true ↔ (12 : ℕ) ≤ max 1 11) :=
  ⟨by decide, shouldRenderPage_window 10 2 11 (by decide),
   shouldRenderPage_window 10 2 12 (by decide)⟩

/-! ## Double-tap zoom gestures (`src/components/FlipbookViewer.tsx:747-780`) -/

/-- The viewer state touched by the tap/click handlers: `lastTapRef`,
`isTouchRef`, and the zoom `scale`. -/
structure GestureState where
  lastTap : ℤ
  isTouch : Bool
  scale : ℚ
deriving Repr, DecidableEq

/-- `setScale(s => s === 1.0 ? 1.4 : 1.0)` (`FlipbookViewer.tsx:757,775`). -/
def toggleScale (s : ℚ) : ℚ := if s = 1 then 7/5 else 1

/-- `handleTouchEnd` (`FlipbookViewer.tsx:751-762`): marks the interaction
as touch, then applies the 300 ms double-tap test. -/
def handleTouchEnd (now : ℤ) (st : GestureState) : GestureState :=
  if now - st.lastTap < 300 then
    { lastTap := 0, isTouch := true, scale := toggleScale st.scale }
  else
    { lastTap := now, isTouch := true, scale := st.scale }

/-- `handleClick` (`FlipbookViewer.tsx:764-780`): a click right after a
touch interaction only consumes the touch flag; otherwise the same 300 ms
double-tap test runs. -/
def handleClick (now : ℤ) (st : GestureState) : GestureState :=
  if st.isTouch then { st with isTouch := false }
  else if now - st.lastTap < 300 then
    { lastTap := 0, isTouch := false, scale := toggleScale st.scale }
  else
    { lastTap := now, isTouch := false, scale := st.scale }

/-- C7: from a fresh interaction (the first tap or click at least 300 ms
after the stored `lastTap`), two `handleClick` invocations — when no
touch flag is pending — and likewise two `handleTouchEnd` invocations
less than 300 ms apart toggle the zoom scale (1.0 becomes 1.4, 1.4
becomes 1.0), while two invocations of either handler 300 ms or more
apart leave the scale unchanged; and a click immediately following any
touch interaction changes neither scale nor tap timestamp (touch and
mouse never double-fire on one interaction). -/
theorem handleClick_double_tap (st : GestureState) (t1 t2 : ℤ)
    (hfresh : 300 ≤ t1 - st.lastTap) :
    (st.isTouch = false → t2 - t1 < 300 →
      ((handleClick t2 (handleClick t1 st)).scale = toggleScale st.scale
        ∧ (st.scale = 1 → (handleClick t2 (handleClick t1 st)).scale = 7/5)
        ∧ (st.scale = 7/5 → (handleClick t2 (handleClick t1 st)).scale = 1)))
    ∧ (st.isTouch = false → 300 ≤ t2 - t1 →
        (handleClick t2 (handleClick t1 st)).scale = st.scale)
    ∧ (t2 - t1 < 300 →
      ((handleTouchEnd t2 (handleTouchEnd t1 st)).scale = toggleScale st.scale
        ∧ (st.scale = 1 →
            (handleTouchEnd t2 (handleTouchEnd t1 st)).scale = 7/5)
        ∧ (st.scale = 7/5 →
            (handleTouchEnd t2 (handleTouchEnd t1 st)).scale = 1)))
    ∧ (300 ≤ t2 - t1 →
        (handleTouchEnd t2 (handleTouchEnd t1 st)).scale = st.scale)
    ∧ (∀ (st' : GestureState) (t t' : ℤ),
        (handleClick t' (handleTouchEnd t st')).scale
            = (handleTouchEnd t st').scale
        ∧ (handleClick t' (handleTouchEnd t st')).lastTap
            = (handleTouchEnd t st').lastTap) := by
  have ht1 : handleTouchEnd t1 st =
      { lastTap := t1, isTouch := true, scale := st.scale } := by
    unfold handleTouchEnd
    rw [if_neg (by omega)]
  refine ⟨?_, ?_, ?_, ?_, ?_⟩
  · intro htouch hlt
    have h1 : handleClick t1 st =
        { lastTap := t1, isTouch := false, scale := st.scale } := by
      unfold handleClick
      rw [if_neg (by rw [htouch]; exact Bool.false_ne_true),
        if_neg (by omega)]
    rw [h1]
    unfold handleClick
    rw [if_neg Bool.false_ne_true,
      if_pos (show t2 - (GestureState.mk t1 false st.scale).lastTap < 300 by
        dsimp only
        omega)]
    refine ⟨rfl, ?_, ?_⟩
    · intro hs
      simp [toggleScale, hs]
    · intro hs
      simp [toggleScale, hs]
  · intro htouch hge
    have h1 : handleClick t1 st =
        { lastTap := t1, isTouch := false, scale := st.scale } := by
      unfold handleClick
      rw [if_neg (by rw [htouch]; exact Bool.false_ne_true),
        if_neg (by omega)]
    rw [h1]
    unfold handleClick
    rw [if_neg Bool.false_ne_true,
      if_neg (show ¬ t2 - (GestureState.mk t1 false st.scale).lastTap < 300 by
        dsimp only
        omega)]
  · intro hlt
    rw [ht1]
    unfold handleTouchEnd
    rw [if_pos (show t2 - (GestureState.mk t1 true st.scale).lastTap < 300 by
        dsimp only
        omega)]
    refine ⟨rfl, ?_, ?_⟩
    · intro hs
      simp [toggleScale, hs]
    · intro hs
      simp [toggleScale, hs]
  · intro hge
    rw [ht1]
    unfold handleTouchEnd
    rw [if_neg (show ¬ t2 - (GestureState.mk t1 true st.scale).lastTap < 300 by
        dsimp only
        omega)]
  · intro st' t t'
    have htrue : (handleTouchEnd t st').isTouch = true := by
      unfold handleTouchEnd
      split <;> rfl
    constructor <;>
      · unfold handleClick
        rw [if_pos htrue]

/-- C7 witness: a concrete double-click and a concrete double-tap, each
toggling the zoom from 1.0. -/
theorem handleClick_double_tap_witness :
    ((⟨0, false, 1⟩ : GestureState).isTouch = false
      ∧ (300 : ℤ) ≤ 1000 - (⟨0, false, 1⟩ : GestureState).lastTap
      ∧ (1100 : ℤ) - 1000 < 300)
    ∧ (handleClick 1100 (handleClick 1000 ⟨0, false, 1⟩)).scale
        = toggleScale (1 : ℚ)
    ∧ (handleTouchEnd 1100 (handleTouchEnd 1000 ⟨0, false, 1⟩)).scale
        = toggleScale (1 : ℚ) :=
  ⟨⟨rfl, by decide, by decide⟩,
   ((handleClick_double_tap ⟨0, false, 1⟩ 1000 1100 (by decide)).1 rfl
     (by decide)).1,
   ((handleClick_double_tap ⟨0, false, 1⟩ 1000 1100 (by decide)).2.2.1
     (by decide)).1⟩

/-! ## Page-flip sound player (`src/components/hooks/usePageFlipSound.ts`) -/

/-- The `do { randomIndex = Math.floor(Math.random() * pool.length) }
while (randomIndex === lastSoundIndexRef.current && pool.length > 1)` loop
(`usePageFlipSound.ts:266-269`), driven by the successive random draws:
the first draw that does not repeat the last index (when the pool has more
than one clip) is selected; `none` models a random stream that never
leaves the loop. -/
def pickIndex (poolLen : ℕ) (last : ℤ) : List ℕ → Option ℕ
  | [] => none
  | d :: ds =>
      if (d : ℤ) = last ∧ 1 < poolLen then pickIndex poolLen last ds
      else some d

/-- `playFlipSound()` (`usePageFlipSound.ts:254-282`) restricted to the
selection state: given the pool size, the previous clip index
(`lastSoundIndexRef`, initially `-1`) and the random draws, returns the
selected clip index (if the loop exits) and the updated last index. -/
def playFlipSound (poolLen : ℕ) (last : ℤ) (draws : List ℕ) :
    Option ℕ × ℤ :=
  if poolLen = 0 then (none, last)
  else
    match pickIndex poolLen last draws with
    | some i => (some i, (i : ℤ))
    | none => (none, last)

lemma pickIndex_ne (poolLen : ℕ) (last : ℤ) (draws : List ℕ) (i : ℕ)
    (hlen : 1 < poolLen) (hpick : pickIndex poolLen last draws = some i) :
    (i : ℤ) ≠ last := by
  induction draws with
  | nil => simp [pickIndex] at hpick
  | cons d ds ih =>
    unfold pickIndex at hpick
    split at hpick
    · exact ih hpick
    · next h =>
      have hd : d = i := by injection hpick
      subst hd
      intro hcontra
      exact h ⟨hcontra, hlen⟩

/-- C8: with more than one clip in the pool, two consecutive
`playFlipSound()` calls never select the same clip index — whatever the
random draws, the second call's selection differs from the first call's
(which became the stored last index). -/
theorem playFlipSound_no_repeat (poolLen : ℕ) (l0 : ℤ)
    (draws1 draws2 : List ℕ) (i j : ℕ) (l1 l2 : ℤ)
    (hlen : 1 < poolLen)
    (h1 : playFlipSound poolLen l0 draws1 = (some i, l1))
    (h2 : playFlipSound poolLen l1 draws2 = (some j, l2)) :
    j ≠ i := by
  have hpool : poolLen ≠ 0 := by omega
  unfold playFlipSound at h1 h2
  rw [if_neg hpool] at h1 h2
  cases hp1 : pickIndex poolLen l0 draws1 with
  | none =>
    rw [hp1] at h1
    simp at h1
  | some i' =>
    rw [hp1] at h1
    simp only [Prod.mk.injEq, Option.some.injEq] at h1
    obtain ⟨rfl, hl1⟩ := h1
    cases hp2 : pickIndex poolLen l1 draws2 with
    | none =>
      rw [hp2] at h2
      simp at h2
    | some j' =>
      rw [hp2] at h2
      simp only [Prod.mk.injEq, Option.some.injEq] at h2
      obtain ⟨rfl, hl2⟩ := h2
      have hne := pickIndex_ne poolLen l1 draws2 _ hlen hp2
      intro hji
      apply hne
      rw [hji, ← hl1]

/-- C8 witness: a concrete pair of consecutive calls on the 3-clip pool. -/
theorem playFlipSound_no_repeat_witness :
    ((1 : ℕ) < 3
      ∧ playFlipSound 3 (-1) [0] = (some 0, 0)
      ∧ playFlipSound 3 0 [0, 0, 2] = (some 2, 2))
    ∧ (2 : ℕ) ≠ 0 :=
  ⟨⟨by decide, by decide, by decide⟩,
   playFlipSound_no_repeat 3 (-1) [0] [0, 0, 2] 0 2 0 2 (by decide)
     (by decide) (by decide)⟩

/-! ## Backend documents table (`src/convex/documents.ts`, `src/convex/schema.ts`) -/

/-- A `categories` row, restricted to the fields the queries consult. -/
structure CategoryRec where
  name : String
  active : Bool
deriving Repr, DecidableEq

/-- A `documents` row, restricted to the fields the claims consult
(`schema.ts:15-22`: `order` is a required number, modelled as `ℚ`). -/
structure DocumentRec where
  title : String
  categoryId : ℕ
  active : Bool
  order : ℚ
deriving Repr, DecidableEq

/-- JS `x || 0` on a number: `0` is falsy, every other number is kept. -/
def jsOr0 (q : ℚ) : ℚ := if q = 0 then 0 else q

lemma jsOr0_eq (q : ℚ) : jsOr0 q = q := by
  unfold jsOr0
  split
  · next h => exact h.symm
  · rfl

/-- `allDocs.reduce((max, d) => Math.max(max, d.order || 0), 0)`
(`documents.ts:20`). -/
def maxOrder (docs : List DocumentRec) : ℚ :=
  docs.foldl (fun m d => max m (jsOr0 d.order)) 0

/-- `saveDocument` (`documents.ts:10-34`): inserts a row with
`active: true` and `order: maxOrder + 1`. -/
def saveDocument (docs : List DocumentRec) (title : String)
    (categoryId : ℕ) : DocumentRec :=
  { title := title, categoryId := categoryId, active := true,
    order := maxOrder docs + 1 }

/-- Modelled from the claim's words (for refinement comparison only):
"the maximum order among all pre-existing documents, or 0 if none". -/
def specMaxOrder (docs : List DocumentRec) : ℚ :=
  match docs with
  | [] => 0
  | d :: ds => ds.foldl (fun m x => max m x.order) d.order

lemma maxOrder_eq_foldl (docs : List DocumentRec) :
    maxOrder docs = docs.foldl (fun m d => max m d.order) 0 := by
  unfold maxOrder
  have hfun : (fun (m : ℚ) (d : DocumentRec) => max m (jsOr0 d.order))
      = fun m d => max m d.order := by
    funext m d
    rw [jsOr0_eq]
  rw [hfun]

lemma foldl_max_bounds (docs : List DocumentRec) (a : ℚ) :
    a ≤ docs.foldl (fun m d => max m d.order) a
    ∧ ∀ d ∈ docs, d.order ≤ docs.foldl (fun m d => max m d.order) a := by
  induction docs generalizing a with
  | nil => simp
  | cons x xs ih =>
    refine ⟨le_trans (le_max_left _ _) (ih (max a x.order)).1, ?_⟩
    intro d hd
    rcases List.mem_cons.mp hd with rfl | hd
    · exact le_trans (le_max_right _ _) (ih (max a d.order)).1
    · exact (ih (max a x.order)).2 d hd

lemma maxOrder_eq_spec (docs : List DocumentRec)
    (h : ∀ d ∈ docs, 0 ≤ d.order) :
    maxOrder docs = specMaxOrder docs := by
  rw [maxOrder_eq_foldl]
  cases docs with
  | nil => rfl
  | cons x xs =>
    unfold specMaxOrder
    simp only [List.foldl_cons]
    rw [max_eq_right (h x (List.mem_cons_self x xs))]

/-- C9: every document inserted by `saveDocument` has `active = true` and
`order` equal to the maximum order among the pre-existing documents (0 if
none) plus 1, hence strictly greater than every pre-existing order — a
newly saved document sorts after every existing document.  (In this
codebase every stored order is non-negative: `saveDocument` writes
`maxOrder + 1 ≥ 1` and `reorder` writes list indices, so the
non-negativity hypothesis is an invariant of all reachable states.) -/
theorem saveDocument_active_and_order (docs : List DocumentRec)
    (title : String) (categoryId : ℕ)
    (h : ∀ d ∈ docs, 0 ≤ d.order) :
    (saveDocument docs title categoryId).active = true
    ∧ (saveDocument docs title categoryId).order = specMaxOrder docs + 1
    ∧ ∀ d ∈ docs, d.order < (saveDocument docs title categoryId).order := by
  refine ⟨rfl, ?_, ?_⟩
  · show maxOrder docs + 1 = specMaxOrder docs + 1
    rw [maxOrder_eq_spec docs h]
  · intro d hd
    show d.order < maxOrder docs + 1
    have hle : d.order ≤ maxOrder docs := by
      rw [maxOrder_eq_foldl]
      exact (foldl_max_bounds docs 0).2 d hd
    linarith

/-- A concrete pre-existing document row used by the C9 witness. -/
def sampleDoc : DocumentRec := ⟨"a", 0, true, 2⟩

/-- C9 witness: saving over one existing document of order 2. -/
theorem saveDocument_active_and_order_witness :
    (∀ d ∈ [sampleDoc], 0 ≤ d.order)
    ∧ (saveDocument [sampleDoc] "b" 1).order = specMaxOrder [sampleDoc] + 1 :=
  ⟨by
    intro d hd
    rcases List.mem_singleton.mp hd with rfl
    norm_num [sampleDoc],
   (saveDocument_active_and_order [sampleDoc] "b" 1
      (by
        intro d hd
        rcases List.mem_singleton.mp hd with rfl
        norm_num [sampleDoc])).2.1⟩

/-- The per-document body of `listActiveDocuments` (`documents.ts:75-77`):
`if (!category?.active) return null` — a document survives only when its
looked-up category exists and is active. -/
def categoryGate : Option CategoryRec → DocumentRec → Option DocumentRec
  | some c, d => if c.active then some d else none
  | none, _ => none

/-- `listActiveDocuments` (`documents.ts:65-93`) restricted to the row
data: the query filters `active = true`, then maps each document to
`null` when its category is missing or inactive (`!category?.active`),
and finally drops the nulls with `.filter(Boolean)`. -/
def listActiveDocuments (docs : List DocumentRec)
    (getCategory : ℕ → Option CategoryRec) : List DocumentRec :=
  (docs.filter (fun d => d.active)).filterMap
    (fun d => categoryGate (getCategory d.categoryId) d)

/-- C10: a document is returned by `listActiveDocuments` iff it is stored,
its own `active` flag is true, and its referenced category exists and is
itself active; an active document with a missing or inactive category is
excluded from the public list. -/
theorem listActiveDocuments_mem (docs : List DocumentRec)
    (getCategory : ℕ → Option CategoryRec) (d : DocumentRec) :
    d ∈ listActiveDocuments docs getCategory
      ↔ d ∈ docs ∧ d.active = true
        ∧ ∃ c, getCategory d.categoryId = some c ∧ c.active = true := by
  unfold listActiveDocuments
  rw [List.mem_filterMap]
  constructor
  · rintro ⟨a, ha, hmatch⟩
    rcases hc : getCategory a.categoryId with - | c
    · rw [hc] at hmatch
      simp [categoryGate] at hmatch
    · rw [hc] at hmatch
      by_cases hca : c.active = true
      · rw [show categoryGate (some c) a = if c.active then some a else none
            from rfl, if_pos hca] at hmatch
        have had : a = d := by injection hmatch
        subst had
        have hmem := List.mem_filter.mp ha
        exact ⟨hmem.1, hmem.2, c, hc, hca⟩
      · rw [show categoryGate (some c) a = if c.active then some a else none
            from rfl, if_neg hca] at hmatch
        simp at hmatch
  · rintro ⟨hd, hact, c, hc, hca⟩
    refine ⟨d, List.mem_filter.mpr ⟨hd, hact⟩, ?_⟩
    rw [hc, show categoryGate (some c) d = if c.active then some d else none
      from rfl, if_pos hca]
